import Mathlib

/-!
Verification development for the CasperLabs contract-api storage module
(`execution-engine/contract/src/contract_api/storage.rs`).

The module is a thin, effectful wrapper over a host FFI boundary.  We embed
it shallowly: each Rust function becomes a Lean function over an explicit
host-response (or host-state) argument; the fatal `runtime::revert` path
becomes the `Out.revert` constructor of a distinguished outcome type, which
models termination of the program instance.  Supporting types from the
`casperlabs_types` crate (URef, Key, AccessRights, ApiError, bytesrepr
errors, SemVer, EntryPoint) are not part of the given sources and are
modelled from the specification.
-/

namespace CLStorage

/-- Byte buffers crossing the host boundary; individual bytes are Nats. -/
abbrev Bytes := List Nat

/-- Modelled from the spec: the deserialization error type of the
byte-codec (`bytesrepr::Error` of `casperlabs_types`, not in the given
sources); the codec itself is a black box, only its failure channel
matters here. -/
inductive BytesreprError where
  | earlyEndOfStream
  | formatting
  | leftOverBytes
deriving DecidableEq

/-- Modelled from the spec: the closed set of host status codes
(`ApiError` of `casperlabs_types`, not in the given sources): success is
represented by `Except.ok`, the named errors and remaining numbered codes
appear here. -/
inductive ApiError where
  | valueNotFound
  | read
  | invalidAccess
  | bytesRepr (e : BytesreprError)
  | other (code : Nat)
deriving DecidableEq

/-- Modelled from the spec: conversion of a codec error into a host error
code, used by `unwrap_or_revert` on deserialization results. -/
def apiOfBytesrepr (e : BytesreprError) : ApiError := ApiError.bytesRepr e

/-- Modelled from the spec: a 32-byte address (each entry a byte). -/
abbrev Address := { l : List Nat // l.length = 32 ∧ ∀ x ∈ l, x < 256 }

/-- Modelled from the spec: capability rights, the subsets of
{Read, Write, Add} (`AccessRights` of `casperlabs_types`). -/
structure AccessRights where
  canRead : Bool
  canWrite : Bool
  canAdd : Bool
deriving DecidableEq

/-- The full-rights constant used throughout `storage.rs`. -/
def AccessRights.READ_ADD_WRITE : AccessRights := ⟨true, true, true⟩

/-- Modelled from the spec: an unforgeable rights-bearing reference
(`URef` of `casperlabs_types`): a 32-byte address plus access rights. -/
structure URef where
  addr : Address
  rights : AccessRights
deriving DecidableEq

/-- Modelled from the spec: the universal storage key
(`Key` of `casperlabs_types`); only the variants used by `storage.rs`
appear: capability references and content-addressed hashes. -/
inductive Key where
  | uref (u : URef)
  | hash (a : Address)
deriving DecidableEq

/-- Modelled from the spec: legacy contract addressing
(`ContractRef` of `casperlabs_types`). -/
inductive ContractRef where
  | uref (u : URef)
  | hash (a : Address)
deriving DecidableEq

/-- `Key::from(contract_ref)` as used by `remove_contract_version`. -/
def keyOfContractRef : ContractRef → Key
  | ContractRef.uref u => Key.uref u
  | ContractRef.hash a => Key.hash a

/-- Modelled from the spec: a semantic version number
(`SemVer` of `casperlabs_types`). -/
structure SemVer where
  major : Nat
  minor : Nat
  patch : Nat
deriving DecidableEq

/-- Modelled from the spec: an opaque entry-point descriptor
(`EntryPoint` of `casperlabs_types::contract_header`); it is only
marshalled through this module, never inspected. -/
structure EntryPoint where
  data : Bytes
deriving DecidableEq

/-- Outcome of running one of the wrapper functions: either a normal
return, or the fatal abort (`runtime::revert`) that terminates the
program instance with a host error code.  Per the design notes, the abort
is a distinguished outcome that unwinds to the instance boundary. -/
inductive Out (α : Type) where
  | ok (a : α)
  | revert (e : ApiError)
deriving DecidableEq

/-- Sequencing of outcomes: a revert propagates to the instance boundary. -/
def Out.bind {α β : Type} : Out α → (α → Out β) → Out β
  | Out.ok a, f => f a
  | Out.revert e, _ => Out.revert e

/-- True exactly on the fatal-abort outcome. -/
def Out.isRevert {α : Type} : Out α → Bool
  | Out.ok _ => false
  | Out.revert _ => true

/-- Host response to a value-returning call: either a non-success status
code (`api_error::result_from` yielded `Err e`), or a success status
followed by the outcome of fetching the host buffer
(`runtime::read_host_buffer`), which may itself fail. -/
inductive HostReadResp where
  | err (e : ApiError)
  | success (fetch : Except ApiError Bytes)

/-- The value codec a wrapper function is instantiated at: `fromT` models
`CLValue::from_t` (serialization into the host value representation,
failing with a host error code), `fromBytes` models
`bytesrepr::deserialize` for the expected type. -/
structure Codec (V : Type) where
  fromT : V → Except ApiError Bytes
  fromBytes : Bytes → Except BytesreprError V

/-- The key codec for the context-local partition: `toBytes` models
`ToBytes::to_bytes` of the arbitrary serializable key type. -/
structure KeyCodec (K : Type) where
  toBytes : K → Except BytesreprError Bytes

/-- The host-response classification shared verbatim by the bodies of
`storage::read` and `storage::read_local`: value-not-found becomes
`Ok(None)`, any other non-success status reverts, a buffer-fetch failure
reverts, and a deserialization failure of fetched bytes is a recoverable
`Err`. -/
def readResponse {V : Type} (c : Codec V) (resp : HostReadResp) :
    Out (Except BytesreprError (Option V)) :=
  match resp with
  | HostReadResp.err ApiError.valueNotFound => Out.ok (Except.ok none)
  | HostReadResp.err e => Out.revert e
  | HostReadResp.success (Except.error e) => Out.revert e
  | HostReadResp.success (Except.ok bs) =>
    match c.fromBytes bs with
    | Except.ok v => Out.ok (Except.ok (some v))
    | Except.error e => Out.ok (Except.error e)

/-- Embedding of `storage::read` (storage.rs lines 25-41): sends the key
built from the uref and classifies the response. -/
def read {V : Type} (c : Codec V) (host : Key → HostReadResp) (u : URef) :
    Out (Except BytesreprError (Option V)) :=
  readResponse c (host (Key.uref u))

/-- Embedding of `storage::read_or_revert` (storage.rs lines 44-48):
`read` followed by `unwrap_or_revert_with(ApiError::Read)` on the outer
result and `unwrap_or_revert_with(ApiError::ValueNotFound)` on the inner
option. -/
def read_or_revert {V : Type} (c : Codec V) (host : Key → HostReadResp) (u : URef) : Out V :=
  match read c host u with
  | Out.revert e => Out.revert e
  | Out.ok (Except.error _) => Out.revert ApiError.read
  | Out.ok (Except.ok none) => Out.revert ApiError.valueNotFound
  | Out.ok (Except.ok (some v)) => Out.ok v

/-- Embedding of `storage::read_local` (storage.rs lines 51-70): first
serializes the key, propagating a serialization failure as a recoverable
`Err` via the question-mark operator; only then invokes the host with the
key bytes.  The second component records the host invocations made (the
key bytes sent), so that the no-host-call property of the early error
path is visible. -/
def read_local {K V : Type} (ck : KeyCodec K) (cv : Codec V)
    (host : Bytes → HostReadResp) (k : K) :
    Out (Except BytesreprError (Option V)) × List Bytes :=
  match ck.toBytes k with
  | Except.error e => (Out.ok (Except.error e), [])
  | Except.ok keyBytes => (readResponse cv (host keyBytes), [keyBytes])

/-- Embedding of `storage::write` (storage.rs lines 73-83): converts the
value with `CLValue::from_t`, reverting on conversion failure, and
otherwise hands the request (key, value bytes) to the fire-and-forget
host call `ext_ffi::write`, returning unit to the caller.  The request is
returned so the effect is observable. -/
def write {V : Type} (c : Codec V) (u : URef) (v : V) : Out (Key × Bytes) :=
  match c.fromT v with
  | Except.error e => Out.revert e
  | Except.ok clBytes => Out.ok (Key.uref u, clBytes)

/-- Embedding of `storage::write_local` (storage.rs lines 86-95): the key
goes through `to_ptr`, whose serialization failure reverts; then the
value is converted as in `write` and the request is handed to
`ext_ffi::write_local`. -/
def write_local {K V : Type} (ck : KeyCodec K) (cv : Codec V) (k : K) (v : V) :
    Out (Bytes × Bytes) :=
  match ck.toBytes k with
  | Except.error e => Out.revert (apiOfBytesrepr e)
  | Except.ok keyBytes =>
    match cv.fromT v with
    | Except.error e => Out.revert e
    | Except.ok clBytes => Out.ok (keyBytes, clBytes)

/-- Embedding of `storage::add` (storage.rs lines 98-109): same
marshalling shape as `write`, handing the request to `ext_ffi::add`
(host-side accumulation). -/
def add {V : Type} (c : Codec V) (u : URef) (v : V) : Out (Key × Bytes) :=
  match c.fromT v with
  | Except.error e => Out.revert e
  | Except.ok clBytes => Out.ok (Key.uref u, clBytes)

/-- Embedding of `storage::add_local` (storage.rs lines 112-121): same
marshalling shape as `write_local`, handing the request to
`ext_ffi::add_local`. -/
def add_local {K V : Type} (ck : KeyCodec K) (cv : Codec V) (k : K) (v : V) :
    Out (Bytes × Bytes) :=
  match ck.toBytes k with
  | Except.error e => Out.revert (apiOfBytesrepr e)
  | Except.ok keyBytes =>
    match cv.fromT v with
    | Except.error e => Out.revert e
    | Except.ok clBytes => Out.ok (keyBytes, clBytes)

/-- Host response to `ext_ffi::create_contract_metadata_at_hash`: the two
32-byte addresses the host writes into the caller-provided buffers. -/
structure MetadataHostResp where
  hashAddr : Address
  accessAddr : Address

/-- Embedding of `storage::create_contract_metadata_at_hash` (storage.rs
lines 126-136): packages the host-written hash address as a `Key::Hash`
and the host-written access address as a `URef` with full
`READ_ADD_WRITE` rights. -/
def create_contract_metadata_at_hash (resp : MetadataHostResp) : Key × URef :=
  (Key.hash resp.hashAddr, URef.mk resp.accessAddr AccessRights.READ_ADD_WRITE)

/-- Embedding of `storage::create_contract_user_group` (storage.rs lines
145-178): marshals the arguments, and on any non-success host status
reverts (`result_from(ret).unwrap_or_revert()`); on success fetches the
buffer (fetch failure reverts) and deserializes the uref list
(deserialization failure reverts); only a fully successful call returns,
and it returns `Ok`.  `dec` is the black-box `bytesrepr::deserialize`
instance for `Vec<URef>`. -/
def create_contract_user_group (contract : Key) (access_key : URef)
    (group_label : String) (num_new_urefs : Nat) (existing_urefs : List URef)
    (dec : Bytes → Except BytesreprError (List URef)) (resp : HostReadResp) :
    Out (Except ApiError (List URef)) :=
  match resp with
  | HostReadResp.err e => Out.revert e
  | HostReadResp.success (Except.error e) => Out.revert e
  | HostReadResp.success (Except.ok bs) =>
    match dec bs with
    | Except.error e => Out.revert (apiOfBytesrepr e)
    | Except.ok urefs => Out.ok (Except.ok urefs)

/-- Embedding of `storage::add_contract_version` (storage.rs lines
185-211): marshals the arguments, invokes the host, and returns
`api_error::result_from(result)` directly to the caller: the host status
is surfaced as the value of the `Result`, with no revert on this path. -/
def add_contract_version (contract : Key) (access_key : URef) (version : SemVer)
    (methods : List (String × EntryPoint)) (named_keys : List (String × Key))
    (status : Except ApiError Unit) : Out (Except ApiError Unit) :=
  Out.ok status

/-- Embedding of `storage::remove_contract_version` (storage.rs lines
217-230): same shape as `add_contract_version`, with the contract given
as a `ContractRef` converted through `Key::from`. -/
def remove_contract_version (contract : ContractRef) (access_key : URef)
    (version : SemVer) (status : Except ApiError Unit) : Out (Except ApiError Unit) :=
  Out.ok status

/-- Embedding of `storage::store_function` (storage.rs lines 234-242):
the host writes a 32-byte address; the function wraps it as a
`ContractRef::URef` with the default `READ_ADD_WRITE` rights. -/
def store_function (name : String) (named_keys : List (String × Key))
    (hostAddr : Address) : ContractRef :=
  ContractRef.uref (URef.mk hostAddr AccessRights.READ_ADD_WRITE)

/-- Embedding of `storage::store_function_at_hash` (storage.rs lines
246-254): the host writes a 32-byte address; the function wraps it as a
`ContractRef::Hash`. -/
def store_function_at_hash (name : String) (named_keys : List (String × Key))
    (hostAddr : Address) : ContractRef :=
  ContractRef.hash hostAddr

/-- Little-endian base-256 digits of `n`, with an explicit fuel bound on
the number of digits produced.  Used to build concrete 32-byte addresses
in the host model. -/
def natToDigits : Nat → Nat → List Nat
  | 0, _ => []
  | fuel + 1, n => if n = 0 then [] else n % 256 :: natToDigits fuel (n / 256)

theorem natToDigits_length (fuel n : Nat) : (natToDigits fuel n).length ≤ fuel := by
  induction fuel generalizing n with
  | zero => simp [natToDigits]
  | succ f ih =>
    simp only [natToDigits]
    split
    · simp
    · simpa using Nat.succ_le_succ (ih (n / 256))

theorem natToDigits_lt (fuel n : Nat) : ∀ x ∈ natToDigits fuel n, x < 256 := by
  induction fuel generalizing n with
  | zero => simp [natToDigits]
  | succ f ih =>
    intro x hx
    simp only [natToDigits] at hx
    split at hx
    · simp at hx
    · rcases List.mem_cons.mp hx with h | h
      · exact h ▸ Nat.mod_lt _ (by norm_num)
      · exact ih _ x h

/-- Modelled from the spec: the address the host mints for its `n`-th
fresh allocation; the host address space is an injective enumeration of
32-byte addresses (fresh addresses are never reused). -/
def addrOfNat (n : Nat) : Address :=
  ⟨natToDigits 32 (n % 256 ^ 32) ++
      List.replicate (32 - (natToDigits 32 (n % 256 ^ 32)).length) 0, by
    constructor
    · have h1 : (natToDigits 32 (n % 256 ^ 32)).length ≤ 32 := natToDigits_length 32 _
      simp only [List.length_append, List.length_replicate]
      omega
    · intro x hx
      rcases List.mem_append.mp hx with h | h
      · exact natToDigits_lt 32 _ x h
      · have := List.eq_of_mem_replicate h
        omega⟩

/-- Value of a little-endian base-256 digit list; left inverse of the
digit expansion, used to prove the address enumeration injective. -/
def digitsVal : List Nat → Nat
  | [] => 0
  | d :: ds => d + 256 * digitsVal ds

theorem digitsVal_append_zeros (l : List Nat) (k : Nat) :
    digitsVal (l ++ List.replicate k 0) = digitsVal l := by
  induction l with
  | nil =>
    simp only [List.nil_append]
    induction k with
    | zero => simp [digitsVal]
    | succ k ih => simp [List.replicate_succ, digitsVal, ih]
  | cons d ds ih => simp [digitsVal, ih]

theorem digitsVal_natToDigits (fuel n : Nat) (h : n < 256 ^ fuel) :
    digitsVal (natToDigits fuel n) = n := by
  induction fuel generalizing n with
  | zero =>
    simp only [pow_zero, Nat.lt_one_iff] at h
    simp [natToDigits, h, digitsVal]
  | succ f ih =>
    simp only [natToDigits]
    split
    · simp [digitsVal, *]
    · have hdiv : n / 256 < 256 ^ f := by
        rw [Nat.div_lt_iff_lt_mul (by norm_num)]
        calc n < 256 ^ (f + 1) := h
        _ = 256 ^ f * 256 := by ring
      simp only [digitsVal, ih _ hdiv]
      omega

theorem addrOfNat_val (n : Nat) (h : n < 256 ^ 32) :
    digitsVal (addrOfNat n).val = n := by
  have hm : n % 256 ^ 32 = n := Nat.mod_eq_of_lt h
  simp only [addrOfNat, hm, digitsVal_append_zeros]
  exact digitsVal_natToDigits 32 n h

theorem addrOfNat_inj {m n : Nat} (hm : m < 256 ^ 32) (hn : n < 256 ^ 32)
    (h : addrOfNat m = addrOfNat n) : m = n := by
  have := congrArg (fun a => digitsVal a.val) h
  simpa [addrOfNat_val m hm, addrOfNat_val n hn] using this

/-- Modelled from the spec: the identity of a storage slot in the global
partition: variant plus raw address bytes; rights are a capability, not
part of identity. -/
inductive StoreKey where
  | urefAddr (a : Address)
  | hashAddr (a : Address)
deriving DecidableEq

/-- Strips a key to the slot identity the host stores under. -/
def storeKeyOf : Key → StoreKey
  | Key.uref u => StoreKey.urefAddr u.addr
  | Key.hash a => StoreKey.hashAddr a

/-- Modelled from the spec: the global partition of the host store, as an
association list from slot identity to the stored value bytes; the most
recent binding for a slot is the current one. -/
abbrev Store := List (StoreKey × Bytes)

/-- Current value bytes of a slot: first binding in the list. -/
def storeLookup : Store → StoreKey → Option Bytes
  | [], _ => none
  | (k, v) :: rest, q => if k = q then some v else storeLookup rest q

/-- Modelled from the spec: the host call `read_value(key)`: checks the
Read right carried by a capability key, then looks the slot up; a missing
slot is the distinguished not-found status, any rights violation is a
host error status. -/
def hostReadValue (s : Store) (k : Key) : HostReadResp :=
  match k with
  | Key.uref u =>
    if u.rights.canRead then
      match storeLookup s (storeKeyOf k) with
      | none => HostReadResp.err ApiError.valueNotFound
      | some bs => HostReadResp.success (Except.ok bs)
    else HostReadResp.err ApiError.invalidAccess
  | Key.hash _ =>
    match storeLookup s (storeKeyOf k) with
    | none => HostReadResp.err ApiError.valueNotFound
    | some bs => HostReadResp.success (Except.ok bs)

/-- Modelled from the spec: the host call `write(key, value_bytes)`:
checks the Write right, then unconditionally replaces the binding of the
slot (last write wins, the prior value is discarded); a rights violation
terminates the instance. -/
def hostWrite (s : Store) (k : Key) (bs : Bytes) : Out Store :=
  match k with
  | Key.uref u =>
    if u.rights.canWrite then Out.ok ((storeKeyOf k, bs) :: s)
    else Out.revert ApiError.invalidAccess
  | Key.hash _ => Out.revert ApiError.invalidAccess

/-- `storage::write` composed with the modelled host: the marshalled
request is delivered to `hostWrite`, yielding the next store. -/
def write_global {V : Type} (c : Codec V) (s : Store) (u : URef) (v : V) : Out Store :=
  Out.bind (write c u v) (fun req => hostWrite s req.1 req.2)

/-- `storage::read` composed with the modelled host over a store. -/
def read_global {V : Type} (c : Codec V) (s : Store) (u : URef) :
    Out (Except BytesreprError (Option V)) :=
  read c (hostReadValue s) u

/-- Modelled from the spec: the host-side state relevant to user-group
creation: the fresh-address counter (all previously minted addresses are
`addrOfNat k` for `k` below it) and the group labels already registered. -/
structure HostState where
  counter : Nat
  groupLabels : List String
deriving DecidableEq

/-- Modelled from the spec: the host call `create_user_group`: fails if
the access reference lacks the Write right or the label is not unique;
otherwise mints `numNew` fresh full-rights references at consecutive
fresh addresses, registers the group, and returns exactly the newly
minted references. -/
def hostCreateUserGroup (st : HostState) (access : URef) (label : String)
    (numNew : Nat) : Except ApiError (List URef × HostState) :=
  if access.rights.canWrite then
    if st.groupLabels.contains label then Except.error (ApiError.other 1)
    else
      Except.ok
        ((List.range numNew).map
            (fun j => URef.mk (addrOfNat (st.counter + j)) AccessRights.READ_ADD_WRITE),
          HostState.mk (st.counter + numNew) (label :: st.groupLabels))
  else Except.error ApiError.invalidAccess

/-- `storage::create_contract_user_group` composed with the modelled
host: the host either signals an error status, or encodes the minted
references with the black-box codec `enc` and hands them back through the
host buffer; the Rust function then decodes them with `dec`. -/
def create_group_pipeline (st : HostState) (contract : Key) (access : URef)
    (label : String) (numNew : Nat) (existing : List URef)
    (enc : List URef → Bytes) (dec : Bytes → Except BytesreprError (List URef)) :
    Out (Except ApiError (List URef)) × HostState :=
  match hostCreateUserGroup st access label numNew with
  | Except.error e =>
    (create_contract_user_group contract access label numNew existing dec
        (HostReadResp.err e), st)
  | Except.ok (refs, st2) =>
    (create_contract_user_group contract access label numNew existing dec
        (HostReadResp.success (Except.ok (enc refs))), st2)

theorem readResponse_ok_none_iff {V : Type} (c : Codec V) (resp : HostReadResp) :
    readResponse c resp = Out.ok (Except.ok none) ↔
      resp = HostReadResp.err ApiError.valueNotFound := by
  cases resp with
  | err e => cases e <;> simp [readResponse]
  | success f =>
    cases f with
    | error e => simp [readResponse]
    | ok bs =>
      cases hfb : c.fromBytes bs <;> simp [readResponse, hfb]

theorem readResponse_err_ne {V : Type} (c : Codec V) (e : ApiError)
    (he : e ≠ ApiError.valueNotFound) :
    readResponse c (HostReadResp.err e) = Out.revert e := by
  cases e <;> simp_all [readResponse]

theorem readResponse_fetch_err {V : Type} (c : Codec V) (e : ApiError) :
    readResponse c (HostReadResp.success (Except.error e)) = Out.revert e := rfl

theorem readResponse_decode_err {V : Type} (c : Codec V) (bs : Bytes)
    (e : BytesreprError) (h : c.fromBytes bs = Except.error e) :
    readResponse c (HostReadResp.success (Except.ok bs)) = Out.ok (Except.error e) := by
  simp [readResponse, h]

/-- The all-zero address, used in concrete instantiations. -/
def zeroAddr : Address :=
  ⟨List.replicate 32 0, by
    refine ⟨by simp, ?_⟩
    intro x hx
    have := List.eq_of_mem_replicate hx
    omega⟩

/-- A concrete full-rights reference at the zero address. -/
def uref0 : URef := URef.mk zeroAddr AccessRights.READ_ADD_WRITE

/-- A concrete value codec for Nat used in witnesses: a value is encoded
as a singleton byte list. -/
def natCodec : Codec Nat :=
  ⟨fun n => Except.ok [n],
   fun bs =>
     match bs with
     | [n] => Except.ok n
     | _ => Except.error BytesreprError.formatting⟩

/-- A concrete key codec for Nat used in witnesses. -/
def natKeyCodec : KeyCodec Nat := ⟨fun n => Except.ok [n]⟩

/-- A key codec that always fails to serialize, used in witnesses. -/
def failingKeyCodec : KeyCodec Nat := ⟨fun _ => Except.error BytesreprError.formatting⟩

/-- A value codec whose conversion to the host representation fails on
odd inputs, used in witnesses. -/
def evenCodec : Codec Nat :=
  ⟨fun n => if n % 2 = 0 then Except.ok [n] else Except.error (ApiError.other 7),
   fun bs =>
     match bs with
     | [n] => Except.ok n
     | _ => Except.error BytesreprError.formatting⟩

/-- C1: for every URef (global) or serializable key (local), `read` and
`read_local` return `Ok(None)` exactly when the host signals value not
found; any other host-signaled failure (a non-success status other than
value-not-found, or a buffer-fetch failure) triggers a fatal abort; and
bytes that are found but do not deserialize yield a recoverable
deserialization error, an outcome distinct from both `None` and the
abort. -/
theorem c1_not_found_classification {K V : Type} (cv : Codec V) (ck : KeyCodec K)
    (host : Key → HostReadResp) (lhost : Bytes → HostReadResp) (u : URef)
    (k : K) (kb : Bytes) (hk : ck.toBytes k = Except.ok kb) :
    (read cv host u = Out.ok (Except.ok none) ↔
      host (Key.uref u) = HostReadResp.err ApiError.valueNotFound) ∧
    (∀ e, e ≠ ApiError.valueNotFound → host (Key.uref u) = HostReadResp.err e →
      read cv host u = Out.revert e) ∧
    (∀ e, host (Key.uref u) = HostReadResp.success (Except.error e) →
      read cv host u = Out.revert e) ∧
    (∀ bs e, host (Key.uref u) = HostReadResp.success (Except.ok bs) →
      cv.fromBytes bs = Except.error e →
      read cv host u = Out.ok (Except.error e) ∧
      (Out.ok (Except.error e) : Out (Except BytesreprError (Option V))) ≠
        Out.ok (Except.ok none) ∧
      ∀ e2, (Out.ok (Except.error e) : Out (Except BytesreprError (Option V))) ≠
        Out.revert e2) ∧
    ((read_local ck cv lhost k).1 = Out.ok (Except.ok none) ↔
      lhost kb = HostReadResp.err ApiError.valueNotFound) ∧
    (∀ e, e ≠ ApiError.valueNotFound → lhost kb = HostReadResp.err e →
      (read_local ck cv lhost k).1 = Out.revert e) ∧
    (∀ e, lhost kb = HostReadResp.success (Except.error e) →
      (read_local ck cv lhost k).1 = Out.revert e) ∧
    (∀ bs e, lhost kb = HostReadResp.success (Except.ok bs) →
      cv.fromBytes bs = Except.error e →
      (read_local ck cv lhost k).1 = Out.ok (Except.error e)) := by
  have hloc : (read_local ck cv lhost k).1 = readResponse cv (lhost kb) := by
    simp [read_local, hk]
  refine ⟨?_, ?_, ?_, ?_, ?_, ?_, ?_, ?_⟩
  · rw [read]
    exact readResponse_ok_none_iff cv (host (Key.uref u))
  · intro e he hh
    rw [read, hh]
    exact readResponse_err_ne cv e he
  · intro e hh
    rw [read, hh]
    exact readResponse_fetch_err cv e
  · intro bs e hh hfb
    refine ⟨?_, by simp, by simp⟩
    rw [read, hh]
    exact readResponse_decode_err cv bs e hfb
  · rw [hloc]
    exact readResponse_ok_none_iff cv (lhost kb)
  · intro e he hh
    rw [hloc, hh]
    exact readResponse_err_ne cv e he
  · intro e hh
    rw [hloc, hh]
    exact readResponse_fetch_err cv e
  · intro bs e hh hfb
    rw [hloc, hh]
    exact readResponse_decode_err cv bs e hfb

theorem c1_not_found_classification_witness :
    read natCodec (fun _ => HostReadResp.err ApiError.valueNotFound) uref0 =
      Out.ok (Except.ok none) ∧
    read natCodec (fun _ => HostReadResp.err (ApiError.other 5)) uref0 =
      Out.revert (ApiError.other 5) ∧
    read natCodec (fun _ => HostReadResp.success (Except.ok [1, 2])) uref0 =
      Out.ok (Except.error BytesreprError.formatting) ∧
    (read_local natKeyCodec natCodec (fun _ => HostReadResp.err ApiError.valueNotFound) 7).1 =
      Out.ok (Except.ok none) := by
  refine ⟨?_, ?_, ?_, ?_⟩
  · exact (c1_not_found_classification natCodec natKeyCodec
      (fun _ => HostReadResp.err ApiError.valueNotFound)
      (fun _ => HostReadResp.err ApiError.valueNotFound) uref0 7 [7] rfl).1.mpr rfl
  · exact (c1_not_found_classification natCodec natKeyCodec
      (fun _ => HostReadResp.err (ApiError.other 5))
      (fun _ => HostReadResp.err (ApiError.other 5)) uref0 7 [7] rfl).2.1
      (ApiError.other 5) (by decide) rfl
  · exact ((c1_not_found_classification natCodec natKeyCodec
      (fun _ => HostReadResp.success (Except.ok [1, 2]))
      (fun _ => HostReadResp.success (Except.ok [1, 2])) uref0 7 [7] rfl).2.2.2.1
      [1, 2] BytesreprError.formatting rfl rfl).1
  · exact (c1_not_found_classification natCodec natKeyCodec
      (fun _ => HostReadResp.err ApiError.valueNotFound)
      (fun _ => HostReadResp.err ApiError.valueNotFound) uref0 7 [7] rfl).2.2.2.2.1.mpr rfl

/-- C4: `read_or_revert` equals `read` composed with two escalation
policies: a missing value escalates to a fatal value-not-found abort, a
deserialization failure escalates to a fatal read abort, and a found
value is returned directly. -/
theorem c4_read_or_revert_escalation {V : Type} (c : Codec V)
    (host : Key → HostReadResp) (u : URef) :
    (∀ v, read c host u = Out.ok (Except.ok (some v)) →
      read_or_revert c host u = Out.ok v) ∧
    (read c host u = Out.ok (Except.ok none) →
      read_or_revert c host u = Out.revert ApiError.valueNotFound) ∧
    (∀ e, read c host u = Out.ok (Except.error e) →
      read_or_revert c host u = Out.revert ApiError.read) := by
  refine ⟨?_, ?_, ?_⟩
  · intro v h
    simp [read_or_revert, h]
  · intro h
    simp [read_or_revert, h]
  · intro e h
    simp [read_or_revert, h]

theorem c4_read_or_revert_escalation_witness :
    read_or_revert natCodec (fun _ => HostReadResp.success (Except.ok [5])) uref0 =
      Out.ok 5 ∧
    read_or_revert natCodec (fun _ => HostReadResp.err ApiError.valueNotFound) uref0 =
      Out.revert ApiError.valueNotFound ∧
    read_or_revert natCodec (fun _ => HostReadResp.success (Except.ok [1, 2])) uref0 =
      Out.revert ApiError.read := by
  refine ⟨?_, ?_, ?_⟩
  · exact (c4_read_or_revert_escalation natCodec
      (fun _ => HostReadResp.success (Except.ok [5])) uref0).1 5 rfl
  · exact (c4_read_or_revert_escalation natCodec
      (fun _ => HostReadResp.err ApiError.valueNotFound) uref0).2.1 rfl
  · exact (c4_read_or_revert_escalation natCodec
      (fun _ => HostReadResp.success (Except.ok [1, 2])) uref0).2.2
      BytesreprError.formatting rfl

/-- C9: for every value whose conversion to the host value representation
fails, each of `write`, `write_local`, `add` and `add_local` fatally
aborts with the conversion error instead of returning an error value;
when the conversion succeeds (and, for the local variants, the key
serializes), each returns normally, handing the marshalled request to the
fire-and-forget host call. -/
theorem c9_conversion_failure_reverts {K V : Type} (cv : Codec V) (ck : KeyCodec K)
    (u : URef) (k : K) (kb : Bytes) (v : V) (hk : ck.toBytes k = Except.ok kb) :
    (∀ e, cv.fromT v = Except.error e →
      write cv u v = Out.revert e ∧
      write_local ck cv k v = Out.revert e ∧
      add cv u v = Out.revert e ∧
      add_local ck cv k v = Out.revert e) ∧
    (∀ b, cv.fromT v = Except.ok b →
      write cv u v = Out.ok (Key.uref u, b) ∧
      write_local ck cv k v = Out.ok (kb, b) ∧
      add cv u v = Out.ok (Key.uref u, b) ∧
      add_local ck cv k v = Out.ok (kb, b)) := by
  refine ⟨?_, ?_⟩
  · intro e h
    refine ⟨?_, ?_, ?_, ?_⟩ <;> simp [write, write_local, add, add_local, hk, h]
  · intro b h
    refine ⟨?_, ?_, ?_, ?_⟩ <;> simp [write, write_local, add, add_local, hk, h]

theorem c9_conversion_failure_reverts_witness :
    write evenCodec uref0 1 = Out.revert (ApiError.other 7) ∧
    write_local natKeyCodec evenCodec 9 1 = Out.revert (ApiError.other 7) ∧
    add evenCodec uref0 1 = Out.revert (ApiError.other 7) ∧
    add_local natKeyCodec evenCodec 9 1 = Out.revert (ApiError.other 7) ∧
    write evenCodec uref0 2 = Out.ok (Key.uref uref0, [2]) ∧
    add_local natKeyCodec evenCodec 9 2 = Out.ok ([9], [2]) := by
  have h1 := (c9_conversion_failure_reverts evenCodec natKeyCodec uref0 9 [9] 1 rfl).1
    (ApiError.other 7) rfl
  have h2 := (c9_conversion_failure_reverts evenCodec natKeyCodec uref0 9 [9] 2 rfl).2
    [2] rfl
  exact ⟨h1.1, h1.2.1, h1.2.2.1, h1.2.2.2, h2.1, h2.2.2.2⟩

/-- C10: for every key whose serialization fails, `read_local` returns
that serialization failure as a recoverable `Err`, and the recorded list
of host invocations is empty: no host operation is made on this path, so
the host state is untouched. -/
theorem c10_key_serialization_failure_no_host_call {K V : Type} (ck : KeyCodec K)
    (cv : Codec V) (host : Bytes → HostReadResp) (k : K) (e : BytesreprError)
    (hk : ck.toBytes k = Except.error e) :
    read_local ck cv host k = (Out.ok (Except.error e), ([] : List Bytes)) := by
  simp [read_local, hk]

theorem c10_key_serialization_failure_no_host_call_witness :
    read_local failingKeyCodec natCodec
        (fun _ => HostReadResp.success (Except.ok [5])) 3 =
      (Out.ok (Except.error BytesreprError.formatting), ([] : List Bytes)) :=
  c10_key_serialization_failure_no_host_call failingKeyCodec natCodec
    (fun _ => HostReadResp.success (Except.ok [5])) 3 BytesreprError.formatting rfl


/-- C2 counterexample: when the host signals a failure status (here, a
missing access right) to `create_contract_user_group`, the function does
NOT return an error value of its `Result` type: it fatally aborts with
that status (`result_from(ret).unwrap_or_revert()` in the source),
refuting the claim that its failures are surfaced as a returned error. -/
theorem c2_counterexample :
    create_contract_user_group (Key.hash zeroAddr) uref0 "label" 1 []
        (fun _ => Except.ok []) (HostReadResp.err ApiError.invalidAccess) =
      Out.revert ApiError.invalidAccess ∧
    (create_contract_user_group (Key.hash zeroAddr) uref0 "label" 1 []
        (fun _ => Except.ok []) (HostReadResp.err ApiError.invalidAccess)).isRevert =
      true := ⟨rfl, rfl⟩

/-- C2 (amended): every failure of `create_contract_user_group` (any
non-success host status, a buffer-fetch failure, or a deserialization
failure of the returned list) triggers a fatal abort; the error case of
its `Result` type is never produced, so the function is not recoverable.
In the registry/group family it is `add_contract_version` and
`remove_contract_version` that surface host errors as recoverable
`Result` values. -/
theorem c2_group_creation_failures_abort (contract : Key) (access : URef)
    (label : String) (n : Nat) (ex : List URef)
    (dec : Bytes → Except BytesreprError (List URef)) (version : SemVer)
    (methods : List (String × EntryPoint)) (named_keys : List (String × Key))
    (cref : ContractRef) :
    (∀ e, create_contract_user_group contract access label n ex dec
        (HostReadResp.err e) = Out.revert e) ∧
    (∀ e, create_contract_user_group contract access label n ex dec
        (HostReadResp.success (Except.error e)) = Out.revert e) ∧
    (∀ resp ae, create_contract_user_group contract access label n ex dec resp ≠
        Out.ok (Except.error ae)) ∧
    (∀ e, add_contract_version contract access version methods named_keys
        (Except.error e) = Out.ok (Except.error e)) ∧
    (∀ e, remove_contract_version cref access version (Except.error e) =
        Out.ok (Except.error e)) := by
  refine ⟨fun e => rfl, fun e => rfl, ?_, fun e => rfl, fun e => rfl⟩
  intro resp ae
  cases resp with
  | err e => simp [create_contract_user_group]
  | success f =>
    cases f with
    | error e => simp [create_contract_user_group]
    | ok bs =>
      cases hd : dec bs <;> simp [create_contract_user_group, hd]

/-- C3 counterexample: a host-signaled error status from
`add_contract_version` (and likewise `remove_contract_version`) is
returned to the caller as a recoverable `Err` value, not escalated to the
fatal-abort path, refuting the claim that every non-success,
non-not-found status triggers the abort. -/
theorem c3_counterexample :
    add_contract_version (Key.hash zeroAddr) uref0 (SemVer.mk 1 0 0) [] []
        (Except.error (ApiError.other 100)) =
      Out.ok (Except.error (ApiError.other 100)) ∧
    (add_contract_version (Key.hash zeroAddr) uref0 (SemVer.mk 1 0 0) [] []
        (Except.error (ApiError.other 100))).isRevert = false ∧
    remove_contract_version (ContractRef.hash zeroAddr) uref0 (SemVer.mk 1 0 0)
        (Except.error (ApiError.other 100)) =
      Out.ok (Except.error (ApiError.other 100)) := ⟨rfl, rfl, rfl⟩

/-- C3 (amended): in the accessor and group-creation family (`read`,
`read_local`, `create_contract_user_group`) a host status that is neither
success nor value-not-found always triggers the fatal-abort path; but the
host-signaled errors of `add_contract_version` and
`remove_contract_version` are returned to the caller as recoverable
`Err` values of their `Result` type, not escalated. -/
theorem c3_error_codes_paths {K V : Type} (cv : Codec V) (ck : KeyCodec K)
    (host : Key → HostReadResp) (lhost : Bytes → HostReadResp) (u : URef)
    (k : K) (kb : Bytes) (contract : Key) (access : URef) (label : String)
    (n : Nat) (ex : List URef) (dec : Bytes → Except BytesreprError (List URef))
    (version : SemVer) (methods : List (String × EntryPoint))
    (named_keys : List (String × Key)) (cref : ContractRef) (e : ApiError)
    (he : e ≠ ApiError.valueNotFound) (hk : ck.toBytes k = Except.ok kb) :
    (host (Key.uref u) = HostReadResp.err e → read cv host u = Out.revert e) ∧
    (lhost kb = HostReadResp.err e → (read_local ck cv lhost k).1 = Out.revert e) ∧
    create_contract_user_group contract access label n ex dec (HostReadResp.err e) =
      Out.revert e ∧
    add_contract_version contract access version methods named_keys (Except.error e) =
      Out.ok (Except.error e) ∧
    remove_contract_version cref access version (Except.error e) =
      Out.ok (Except.error e) := by
  refine ⟨?_, ?_, rfl, rfl, rfl⟩
  · intro hh
    rw [read, hh]
    exact readResponse_err_ne cv e he
  · intro hh
    simp [read_local, hk, hh]
    exact readResponse_err_ne cv e he

theorem c3_error_codes_paths_witness :
    read natCodec (fun _ => HostReadResp.err (ApiError.other 42)) uref0 =
      Out.revert (ApiError.other 42) ∧
    add_contract_version (Key.hash zeroAddr) uref0 (SemVer.mk 1 0 0) [] []
        (Except.error (ApiError.other 42)) =
      Out.ok (Except.error (ApiError.other 42)) := by
  have h := c3_error_codes_paths natCodec natKeyCodec
    (fun _ => HostReadResp.err (ApiError.other 42))
    (fun _ => HostReadResp.err (ApiError.other 42)) uref0 7 [7]
    (Key.hash zeroAddr) uref0 "label" 1 [] (fun _ => Except.ok [])
    (SemVer.mk 1 0 0) [] [] (ContractRef.hash zeroAddr) (ApiError.other 42)
    (by decide) rfl
  exact ⟨h.1 rfl, h.2.2.2.1⟩

/-- C5: for every capability reference carrying Write and Read rights and
every value the codec round-trips, writing through `write` and then
reading through `read` over the modelled host store yields `Ok(Some v)`,
for every prior store contents: the last write wins and the prior value
under the slot is discarded, not merged. -/
theorem c5_write_read_round_trip {V : Type} (c : Codec V) (s : Store) (u : URef)
    (v : V) (b : Bytes) (hw : u.rights.canWrite = true)
    (hr : u.rights.canRead = true) (henc : c.fromT v = Except.ok b)
    (hdec : c.fromBytes b = Except.ok v) :
    Out.bind (write_global c s u v) (fun s2 => read_global c s2 u) =
      Out.ok (Except.ok (some v)) := by
  simp [write_global, write, henc, Out.bind, hostWrite, hw, read_global, read,
    hostReadValue, hr, storeKeyOf, storeLookup, readResponse, hdec]

theorem c5_write_read_round_trip_witness :
    Out.bind (write_global natCodec [(StoreKey.urefAddr zeroAddr, [99])] uref0 5)
        (fun s2 => read_global natCodec s2 uref0) =
      Out.ok (Except.ok (some 5)) :=
  c5_write_read_round_trip natCodec [(StoreKey.urefAddr zeroAddr, [99])] uref0 5 [5]
    rfl rfl rfl rfl

/-- C6: `create_contract_metadata_at_hash` returns the host-written
32-byte hash address packaged as a `Hash`-variant key, paired with an
access reference carrying full `READ_ADD_WRITE` rights over the
host-written 32-byte access address. -/
theorem c6_metadata_shape (resp : MetadataHostResp) :
    create_contract_metadata_at_hash resp =
      (Key.hash resp.hashAddr, URef.mk resp.accessAddr AccessRights.READ_ADD_WRITE) ∧
    (create_contract_metadata_at_hash resp).2.rights.canRead = true ∧
    (create_contract_metadata_at_hash resp).2.rights.canAdd = true ∧
    (create_contract_metadata_at_hash resp).2.rights.canWrite = true ∧
    resp.hashAddr.val.length = 32 ∧
    (create_contract_metadata_at_hash resp).2.addr.val.length = 32 :=
  ⟨rfl, rfl, rfl, rfl, resp.hashAddr.property.1, resp.accessAddr.property.1⟩

/-- C8: `store_function` returns a `ContractRef` of the `URef` variant
carrying the host-written 32-byte address with the default
`READ_ADD_WRITE` rights, and `store_function_at_hash` returns the `Hash`
variant carrying the host-written 32-byte address; the rights are always
exactly the default. -/
theorem c8_store_function_shapes (name : String)
    (named_keys : List (String × Key)) (a : Address) :
    store_function name named_keys a =
      ContractRef.uref (URef.mk a AccessRights.READ_ADD_WRITE) ∧
    store_function_at_hash name named_keys a = ContractRef.hash a ∧
    (URef.mk a AccessRights.READ_ADD_WRITE).rights = AccessRights.READ_ADD_WRITE ∧
    a.val.length = 32 :=
  ⟨rfl, rfl, rfl, a.property.1⟩

/-- C7: for every contract key, access reference, label, count `n` and
existing-reference set `S` whose members were all previously minted, a
successful `create_contract_user_group` call over the modelled host
returns exactly the `n` newly minted capability references: the returned
list has length `n`, none of its addresses was minted before the call,
none of the references of `S` is echoed back, and the returned addresses
are pairwise distinct. -/
theorem c7_group_returns_new_refs (st : HostState) (contract : Key) (access : URef)
    (label : String) (n : Nat) (S : List URef)
    (enc : List URef → Bytes) (dec : Bytes → Except BytesreprError (List URef))
    (refs : List URef) (st2 : HostState)
    (hb : st.counter + n ≤ 256 ^ 32)
    (hS : ∀ x ∈ S, ∃ m, m < st.counter ∧ x.addr = addrOfNat m)
    (hok : hostCreateUserGroup st access label n = Except.ok (refs, st2))
    (hdec : dec (enc refs) = Except.ok refs) :
    (create_group_pipeline st contract access label n S enc dec).1 =
      Out.ok (Except.ok refs) ∧
    refs.length = n ∧
    (∀ x ∈ refs, ∀ m, m < st.counter → x.addr ≠ addrOfNat m) ∧
    (∀ x ∈ refs, ∀ y ∈ S, x.addr ≠ y.addr) ∧
    List.Pairwise (fun a b => a.addr ≠ b.addr) refs := by
  have hpipe : (create_group_pipeline st contract access label n S enc dec).1 =
      Out.ok (Except.ok refs) := by
    simp [create_group_pipeline, hok, create_contract_user_group, hdec]
  have hrefs : refs = (List.range n).map
      (fun j => URef.mk (addrOfNat (st.counter + j)) AccessRights.READ_ADD_WRITE) := by
    unfold hostCreateUserGroup at hok
    split at hok
    · split at hok
      · cases hok
      · simp only [Except.ok.injEq, Prod.mk.injEq] at hok
        exact hok.1.symm
    · cases hok
  subst hrefs
  have hfresh : ∀ x ∈ (List.range n).map
      (fun j => URef.mk (addrOfNat (st.counter + j)) AccessRights.READ_ADD_WRITE),
      ∀ m, m < st.counter → x.addr ≠ addrOfNat m := by
    intro x hx m hm hcontra
    simp only [List.mem_map, List.mem_range] at hx
    obtain ⟨j, hj, rfl⟩ := hx
    have h1 : st.counter + j < 256 ^ 32 := by omega
    have h2 : m < 256 ^ 32 := by omega
    have := addrOfNat_inj h1 h2 hcontra
    omega
  refine ⟨hpipe, by simp, hfresh, ?_, ?_⟩
  · intro x hx y hy hcontra
    obtain ⟨m, hm, hya⟩ := hS y hy
    exact hfresh x hx m hm (hcontra.trans hya)
  · rw [List.pairwise_map]
    have hlt : List.Pairwise (fun i j => i < j) (List.range n) := List.pairwise_lt_range n
    refine List.Pairwise.imp_of_mem ?_ hlt
    intro i j hi hj hij hcontra
    have hi2 : i < n := List.mem_range.mp hi
    have hj2 : j < n := List.mem_range.mp hj
    have h1 : st.counter + i < 256 ^ 32 := by omega
    have h2 : st.counter + j < 256 ^ 32 := by omega
    have := addrOfNat_inj h1 h2 hcontra
    omega


/-- A previously minted reference (index 0), used in the C7 witness. -/
def sRef : URef := URef.mk (addrOfNat 0) AccessRights.READ_ADD_WRITE

/-- The two references the modelled host mints from counter 2, used in
the C7 witness. -/
def refsMinted : List URef :=
  [URef.mk (addrOfNat 2) AccessRights.READ_ADD_WRITE,
   URef.mk (addrOfNat 3) AccessRights.READ_ADD_WRITE]

/-- A concrete uref-list encoding for the C7 witness: each reference
becomes the numeric value of its address. -/
def urefListEnc : List URef → Bytes :=
  fun refs => refs.map (fun x => digitsVal x.addr.val)

/-- The matching concrete uref-list decoding for the C7 witness. -/
def urefListDec : Bytes → Except BytesreprError (List URef) :=
  fun bs =>
    Except.ok (bs.map (fun m => URef.mk (addrOfNat m) AccessRights.READ_ADD_WRITE))

theorem c7_group_returns_new_refs_witness :
    (create_group_pipeline (HostState.mk 2 []) (Key.hash zeroAddr) uref0 "g" 2
        [sRef] urefListEnc urefListDec).1 = Out.ok (Except.ok refsMinted) ∧
    refsMinted.length = 2 := by
  have h := c7_group_returns_new_refs (HostState.mk 2 []) (Key.hash zeroAddr) uref0
    "g" 2 [sRef] urefListEnc urefListDec refsMinted (HostState.mk 4 ["g"])
    (by norm_num)
    (fun x hx => by
      simp only [List.mem_singleton] at hx
      exact ⟨0, by norm_num, by rw [hx]; rfl⟩)
    rfl rfl
  exact ⟨h.1, h.2.1⟩

end CLStorage
